import Mathlib

/-!
Verification development for the scratch-pool and in-memory vector-store core
of the DiskANN repository.

The embedding covers:
* `InMemDataStore` (src/unnamed/part_000): constructor, `load` / `load_data`,
  `store`, `get_vector`, `set_vector`.  Memory is modelled as an `Allocation`:
  an explicit size together with a total map from addresses to components, so
  that reads and writes are pointwise and the allocation size of the buffer is
  tracked exactly.  A freed buffer is `none`.
* `ScratchStoreManager` (src/include/scratch.h): the constructor acquire
  loop and the destructor clear / push / notify sequence, together
  with a transition system describing arbitrary sequential interleavings of
  lease, mutate and release steps against the pool.

Parts of the repository that the two source files reference but whose bodies
are not among the sources (the `ROUND_UP` macro and
`copy_aligned_data_from_file` from utils.h, `ConcurrentQueue` from
concurrent_queue.h, `InMemQueryScratch::clear` and
`InMemDataStore::resize`) are modelled from the specification and are marked
as such in their doc comments.
-/

namespace DiskAnn

/-- Modelled from the spec: the `ROUND_UP` macro of utils.h (not among the
sources) — "`aligned_dim` = dim rounded up to an 8-element boundary", i.e.
`ROUND_UP x y` is `x` rounded up to the next multiple of `y`. -/
def ROUND_UP (x y : Nat) : Nat :=
  (x / y + if x % y = 0 then 0 else 1) * y

/-- An owned aligned allocation: its exact element count (`size`) and its
contents, a total map from element offsets to components.  Offsets at or
beyond `size` are outside the allocation; reading them is a contract
violation of the embedded program, not of the model. -/
structure Allocation (α : Type) where
  size : Nat
  mem : Nat → α

/-- The dead allocation used as the default when dereferencing a released
buffer (the C++ program would exhibit undefined behaviour there). -/
def defaultAllocation {α : Type} [Zero α] : Allocation α :=
  { size := 0, mem := fun _ => 0 }

/-- State of `InMemDataStore<data_t>` (src/unnamed/part_000): capacity
`max_points` and dimension `dim` from `AbstractDataStore`, the aligned
dimension, the `_empty_slots` bookkeeping set, and the `_data` buffer
(`none` once `aligned_free` has run).  The injected distance-metric object is
opaque to every modelled operation and is omitted. -/
structure InMemDataStore (α : Type) where
  max_points : Nat
  dim : Nat
  aligned_dim : Nat
  empty_slots : List Nat
  data : Option (Allocation α)

/-- The `InMemDataStore` constructor (part_000 lines 12-19): `_aligned_dim :=
ROUND_UP(dim, 8)`, then `alloc_aligned` of `max_pts * _aligned_dim` elements
followed by `memset` to zero. -/
def mkInMemDataStore {α : Type} [Zero α] (max_pts dim : Nat) : InMemDataStore α :=
  { max_points := max_pts
    dim := dim
    aligned_dim := ROUND_UP dim 8
    empty_slots := []
    data := some { size := max_pts * ROUND_UP dim 8, mem := fun _ => 0 } }

/-- `get_vector` (part_000 lines 104-107): returns the pointer
`_data + i * _aligned_dim`; reading component `j` through that pointer reads
buffer address `i * _aligned_dim + j`.  No bounds check is performed: the
definition is total in `i`. -/
def get_vector {α : Type} [Zero α] (s : InMemDataStore α) (i : Nat) : Nat → α :=
  fun j => (s.data.getD defaultAllocation).mem (i * s.aligned_dim + j)

/-- Pointwise model of `memcpy(m + off, v, n * sizeof(data_t))`: addresses in
`[off, off + n)` take the corresponding component of `v`; every other address
is untouched. -/
def writeRange {α : Type} [Zero α] (m : Nat → α) (off : Nat) (v : List α) (n : Nat) :
    Nat → α :=
  fun addr => if off ≤ addr ∧ addr < off + n then v.getD (addr - off) 0 else m addr

/-- `set_vector` (part_000 lines 109-113): `memcpy(_data + loc * _aligned_dim,
vector, _dim * sizeof(data_t))` — exactly `dim` components are written. -/
def set_vector {α : Type} [Zero α] (s : InMemDataStore α) (loc : Nat) (v : List α) :
    InMemDataStore α :=
  { s with data := s.data.map (fun a =>
      { a with mem := writeRange a.mem (loc * s.aligned_dim) v s.dim }) }

/-- `store` (part_000 lines 34-36): an empty body — the state is returned
unchanged and nothing is written or raised. -/
def InMemDataStore.store {α : Type} (s : InMemDataStore α) (_filename : String) :
    InMemDataStore α :=
  s

/-- A vector file that exists: header metadata `(num_points, dim)` and the
component map `rows i j` (the `j`-th component of the `i`-th vector, for
`i < num_points`, `j < dim`). -/
structure BinFile (α : Type) where
  num_points : Nat
  dim : Nat
  rows : Nat → Nat → α

/-- The exceptions `load_data` can throw, typed by their payload. -/
inductive ANNException where
  | fileNotExist : ANNException
  | dimMismatch (expected actual : Nat) : ANNException
deriving DecidableEq

/-- Modelled from the spec: `InMemDataStore::resize` (declared in
in_mem_data_store.h, body not among the sources) — reallocates so the store
holds `new_max` points ("transparently resizes first", "every loaded id is
subsequently retrievable"), preserving existing contents at their offsets. -/
def resize {α : Type} (s : InMemDataStore α) (new_max : Nat) : InMemDataStore α :=
  { s with max_points := new_max
           data := s.data.map (fun a =>
             { size := new_max * s.aligned_dim, mem := a.mem }) }

/-- Modelled from the spec: `copy_aligned_data_from_file` (utils.h, not among
the sources) — copies each of the `num_points` file vectors of `dim`
components into consecutive `aligned_dim`-wide slots of the buffer, the slot
tail beyond `dim` being zero padding; addresses beyond the copied region are
untouched. -/
def copyAlignedDataFromFile {α : Type} [Zero α] (f : BinFile α) (aligned_dim : Nat)
    (m : Nat → α) : Nat → α :=
  fun addr =>
    if 0 < aligned_dim ∧ addr / aligned_dim < f.num_points then
      if addr % aligned_dim < f.dim then f.rows (addr / aligned_dim) (addr % aligned_dim)
      else 0
    else m addr

/-- `load_data` (part_000 lines 67-102).  The filesystem is modelled by the
argument: `none` when `file_exists(filename)` is false, `some f` otherwise.
The returned pair is the store state after the call together with the thrown
exception or the returned point count.  Faithful to the source order:
missing file → `aligned_free(_data)` and throw; read metadata; clear
`_empty_slots`; dimension mismatch → `aligned_free(_data)` and throw;
resize when the file holds more points than the current capacity; copy. -/
def load_data {α : Type} [Zero α] (s : InMemDataStore α) (file : Option (BinFile α)) :
    InMemDataStore α × Except ANNException Nat :=
  match file with
  | none => ({ s with data := none }, Except.error ANNException.fileNotExist)
  | some f =>
    let s1 : InMemDataStore α := { s with empty_slots := [] }
    if f.dim ≠ s1.dim then
      ({ s1 with data := none }, Except.error (ANNException.dimMismatch s1.dim f.dim))
    else
      let s2 : InMemDataStore α :=
        if s1.max_points < f.num_points then resize s1 f.num_points else s1
      let s3 : InMemDataStore α :=
        { s2 with data := s2.data.map (fun a =>
            { a with mem := copyAlignedDataFromFile f s2.aligned_dim a.mem }) }
      (s3, Except.ok f.num_points)

/-- `load` (part_000 lines 29-32): delegates to `load_data`. -/
def InMemDataStore.load {α : Type} [Zero α] (s : InMemDataStore α)
    (file : Option (BinFile α)) : InMemDataStore α × Except ANNException Nat :=
  load_data s file

/-- A `(id, distance)` candidate (neighbor.h is not among the sources; the
distance is abstracted to `Int` — only container emptiness matters here). -/
structure Neighbor where
  id : Nat
  distance : Int
deriving DecidableEq

/-- The observable container state of `InMemQueryScratch<T>`
(src/include/scratch.h lines 28-111): the reserved capacities `L`, `R`,
`maxc` and the growable containers the lease protocol is specified to empty.
The aligned query / PQ scratch raw buffers carry no observable emptiness and
are omitted. -/
structure InMemQueryScratch where
  L : Nat
  R : Nat
  maxc : Nat
  pool : List Neighbor
  visited : List Nat
  best_l_nodes : List Neighbor
  inserted_into_pool_rs : List Nat
deriving DecidableEq

/-- Modelled from the spec: `InMemQueryScratch::clear` (declared at
scratch.h line 37, body not among the sources) — "empties pool, visited set,
best_l_nodes, and the dedupe structure while preserving reserved capacity". -/
def InMemQueryScratch.clear (s : InMemQueryScratch) : InMemQueryScratch :=
  { s with pool := [], visited := [], best_l_nodes := [], inserted_into_pool_rs := [] }

/-- Observable emptiness of a scratch object: pool, visited and best_l_nodes
are all empty. -/
def InMemQueryScratch.is_empty (s : InMemQueryScratch) : Prop :=
  s.pool = [] ∧ s.visited = [] ∧ s.best_l_nodes = []

instance (s : InMemQueryScratch) : Decidable s.is_empty := by
  unfold InMemQueryScratch.is_empty; infer_instance

/-- Modelled from the spec: `ConcurrentQueue<T*>` (concurrent_queue.h, not
among the sources) — "owns a queue of exclusively-allocated T instances;
non-blocking pop returns a null sentinel when empty; a separate wait
primitive blocks until any push occurs".  `none` is the null sentinel. -/
structure ConcurrentQueue (T : Type) where
  items : List T

/-- Non-blocking pop: the front element, or the null sentinel when empty. -/
def ConcurrentQueue.pop {T : Type} (q : ConcurrentQueue T) :
    Option T × ConcurrentQueue T :=
  match q.items with
  | [] => (none, q)
  | x :: xs => (some x, ⟨xs⟩)

/-- Concurrency-safe insertion of ownership into the pool. -/
def ConcurrentQueue.push {T : Type} (q : ConcurrentQueue T) (x : T) :
    ConcurrentQueue T :=
  ⟨q.items ++ [x]⟩

/-- The `ScratchStoreManager` constructor loop (scratch.h lines 157-164):
`_scratch = pop(); while (_scratch == nullptr) { wait_for_push_notify();
_scratch = pop(); }`.  Each `wait_for_push_notify` return is modelled as the
arrival of the next element of `pushes` into the queue; with no further push
the loop blocks forever, modelled as `none`.  On success the held object and
the remaining queue are returned. -/
def acquire {T : Type} : List T → ConcurrentQueue T → Option (T × ConcurrentQueue T)
  | [], q =>
    match ConcurrentQueue.pop q with
    | (some x, q') => some (x, q')
    | (none, _) => none
  | p :: rest, q =>
    match ConcurrentQueue.pop q with
    | (some x, q') => some (x, q')
    | (none, q') => acquire rest (q'.push p)

/-- The `ScratchStoreManager` destructor (scratch.h lines 169-173):
`_scratch->clear(); _scratch_pool.push(_scratch); _scratch_pool.push_notify_all();`
— the object pushed back is the cleared one; the notification mutates no
queue state. -/
def scratchRelease (q : ConcurrentQueue InMemQueryScratch) (s : InMemQueryScratch) :
    ConcurrentQueue InMemQueryScratch :=
  ConcurrentQueue.push q s.clear

/-- A pool together with the multiset of currently leased scratch objects. -/
structure PoolSystem where
  pool : ConcurrentQueue InMemQueryScratch
  leased : List InMemQueryScratch

/-- One step a worker thread can take against the pool: lease an object
(`acquire`), fill a leased object with arbitrary search state (`mutate`), or
run the lease destructor on a leased object (`release`). -/
inductive PoolOp where
  | acquire : PoolOp
  | mutate (i : Nat) (s : InMemQueryScratch) : PoolOp
  | release (i : Nat) : PoolOp

/-- Transition relation of the pool system.  `acquire` pops the front scratch
into the leased set (the null sentinel leaves the system unchanged — the
thread is waiting); `mutate i s` overwrites leased object `i` with arbitrary
contents; `release i` runs the `ScratchStoreManager` destructor on leased
object `i`. -/
def stepPool (sys : PoolSystem) : PoolOp → PoolSystem
  | PoolOp.acquire =>
    match ConcurrentQueue.pop sys.pool with
    | (some x, q') => { pool := q', leased := x :: sys.leased }
    | (none, _) => sys
  | PoolOp.mutate i s => { sys with leased := sys.leased.set i s }
  | PoolOp.release i =>
    match sys.leased.get? i with
    | some x => { pool := scratchRelease sys.pool x, leased := sys.leased.eraseIdx i }
    | none => sys

/-- Run a sequence of pool operations: an arbitrary sequential interleaving
of the per-thread lease / use / release cycles. -/
def runPool (sys : PoolSystem) : List PoolOp → PoolSystem
  | [] => sys
  | op :: ops => runPool (stepPool sys op) ops

/-! ### Helper lemmas -/

lemma slot_addr_lt {i j ad n : Nat} (hi : i < n) (hj : j < ad) :
    i * ad + j < n * ad := by
  have h1 : (i + 1) * ad ≤ n * ad := Nat.mul_le_mul hi (Nat.le_refl ad)
  have h2 : (i + 1) * ad = i * ad + ad := by ring
  omega

lemma slot_addr_div {i j ad : Nat} (had : 0 < ad) (hj : j < ad) :
    (i * ad + j) / ad = i := by
  rw [Nat.mul_comm, Nat.mul_add_div had, Nat.div_eq_of_lt hj, Nat.add_zero]

lemma slot_addr_mod {i j ad : Nat} (hj : j < ad) :
    (i * ad + j) % ad = j := by
  rw [Nat.mul_comm, Nat.mul_add_mod, Nat.mod_eq_of_lt hj]

lemma writeRange_in {α : Type} [Zero α] (m : Nat → α) (off : Nat) (v : List α)
    (n j : Nat) (hj : j < n) : writeRange m off v n (off + j) = v.getD j 0 := by
  unfold writeRange
  rw [if_pos (by omega : off ≤ off + j ∧ off + j < off + n)]
  congr 1
  omega

lemma writeRange_out {α : Type} [Zero α] (m : Nat → α) (off : Nat) (v : List α)
    (n addr : Nat) (haddr : addr < off ∨ off + n ≤ addr) :
    writeRange m off v n addr = m addr := by
  unfold writeRange
  rw [if_neg]
  omega

/-! ### Claims about the vector store -/

/-- C9: `store(path)` is a no-op — for every store state and every path it
writes nothing, raises nothing, and returns the state with every field
(buffer contents, dimensions, capacity) unchanged. -/
theorem store_is_noop {α : Type} (s : InMemDataStore α) (filename : String) :
    InMemDataStore.store s filename = s :=
  rfl

/-- C5: `aligned_dim` equals `dim` rounded up to the next multiple of 8
(5 → 8, 8 → 8, 9 → 16), and construction allocates a zero-initialized buffer
of exactly `max_points * aligned_dim` elements, so every component of every
slot (padding included) reads zero on a fresh store. -/
theorem construct_aligned_zero :
    (∀ max_pts dim : Nat,
      (mkInMemDataStore (α := Int) max_pts dim).aligned_dim = ROUND_UP dim 8) ∧
    (∀ dim : Nat,
      8 ∣ ROUND_UP dim 8 ∧ dim ≤ ROUND_UP dim 8 ∧ ROUND_UP dim 8 < dim + 8) ∧
    ROUND_UP 5 8 = 8 ∧ ROUND_UP 8 8 = 8 ∧ ROUND_UP 9 8 = 16 ∧
    (∀ max_pts dim : Nat, ∃ a : Allocation Int,
      (mkInMemDataStore max_pts dim).data = some a ∧
      a.size = max_pts * (mkInMemDataStore (α := Int) max_pts dim).aligned_dim ∧
      ∀ addr : Nat, a.mem addr = 0) := by
  refine ⟨fun _ _ => rfl, ?_, by decide, by decide, by decide, ?_⟩
  · intro dim
    refine ⟨⟨dim / 8 + if dim % 8 = 0 then 0 else 1, ?_⟩, ?_, ?_⟩
    · unfold ROUND_UP
      exact Nat.mul_comm _ 8
    · unfold ROUND_UP
      split <;> omega
    · unfold ROUND_UP
      split <;> omega
  · intro max_pts dim
    exact ⟨_, rfl, rfl, fun _ => rfl⟩

/-- C4 counterexample: the claim says the store state after a failed load on
a missing file equals the state before, but the code calls
`aligned_free(_data)` before throwing (part_000 line 76): on a fresh
2-point, 3-dimensional store over `Int`, the state after the call differs
from the state before (the buffer is released). -/
theorem load_missing_file_mutates_state :
    (load_data (mkInMemDataStore (α := Int) 2 3) none).1 ≠
      mkInMemDataStore (α := Int) 2 3 := by
  intro h
  have hd := congrArg InMemDataStore.data h
  simp [load_data, mkInMemDataStore] at hd

/-- C4 amended: on a missing file the `ResourceUnavailable` error is surfaced
before the empty-slot set is cleared and before any vector data is copied;
the only state change is the release of the data buffer (the code frees it
before throwing), every other field being unchanged. -/
theorem load_missing_file_frees_buffer_only {α : Type} [Zero α]
    (s : InMemDataStore α) :
    InMemDataStore.load s none =
      ({ s with data := none }, Except.error ANNException.fileNotExist) :=
  rfl

/-- C3: when the file exists but its recorded dimensionality differs from the
configured dimension, load releases the data buffer and fails with a typed
dimension-mismatch error carrying the expected and the actual dimension; no
vector data is copied (the only other state change is the cleared empty-slot
set) and the store is thereafter unusable (`data = none`). -/
theorem load_dim_mismatch_releases_buffer {α : Type} [Zero α]
    (s : InMemDataStore α) (f : BinFile α) (hneq : f.dim ≠ s.dim) :
    InMemDataStore.load s (some f) =
      ({ s with empty_slots := [], data := none },
       Except.error (ANNException.dimMismatch s.dim f.dim)) := by
  simp [InMemDataStore.load, load_data, hneq]

/-- C3 witness: a fresh 2-point, 3-dimensional store rejects a file recording
dimension 7, releasing the buffer and carrying both dimensions. -/
theorem load_dim_mismatch_releases_buffer_witness :
    ((7 : Nat) ≠ (mkInMemDataStore (α := Int) 2 3).dim) ∧
    InMemDataStore.load (mkInMemDataStore (α := Int) 2 3)
        (some { num_points := 5, dim := 7, rows := fun _ _ => 0 }) =
      ({ mkInMemDataStore (α := Int) 2 3 with empty_slots := [], data := none },
       Except.error
         (ANNException.dimMismatch (mkInMemDataStore (α := Int) 2 3).dim 7)) :=
  ⟨by decide, load_dim_mismatch_releases_buffer _ _ (by decide)⟩

/-- C10: load is not fully atomic on bookkeeping state: `_empty_slots` is
cleared after reading the file metadata but before the dimension check, so on
a dimension-mismatch failure the empty-slot set is already empty — even
starting from a non-empty one — though no vector data was copied (the buffer
is released, not written). -/
theorem load_dim_mismatch_clears_empty_slots {α : Type} [Zero α]
    (s : InMemDataStore α) (f : BinFile α) (hneq : f.dim ≠ s.dim)
    (_hslots : s.empty_slots ≠ []) :
    (InMemDataStore.load s (some f)).1.empty_slots = [] ∧
    (InMemDataStore.load s (some f)).2 =
      Except.error (ANNException.dimMismatch s.dim f.dim) ∧
    (InMemDataStore.load s (some f)).1.data = none := by
  simp [InMemDataStore.load, load_data, hneq]

/-- C10 witness: a store with a non-empty empty-slot set loses it on a
dimension-mismatch load failure. -/
theorem load_dim_mismatch_clears_empty_slots_witness :
    ((7 : Nat) ≠ ({ mkInMemDataStore (α := Int) 2 3 with
        empty_slots := [0] } : InMemDataStore Int).dim) ∧
    (({ mkInMemDataStore (α := Int) 2 3 with
        empty_slots := [0] } : InMemDataStore Int).empty_slots ≠ []) ∧
    ((InMemDataStore.load
        ({ mkInMemDataStore (α := Int) 2 3 with empty_slots := [0] })
        (some { num_points := 5, dim := 7, rows := fun _ _ => 0 })).1.empty_slots
        = [] ∧
     (InMemDataStore.load
        ({ mkInMemDataStore (α := Int) 2 3 with empty_slots := [0] })
        (some { num_points := 5, dim := 7, rows := fun _ _ => 0 })).2 =
        Except.error (ANNException.dimMismatch
          ({ mkInMemDataStore (α := Int) 2 3 with
              empty_slots := [0] } : InMemDataStore Int).dim 7) ∧
     (InMemDataStore.load
        ({ mkInMemDataStore (α := Int) 2 3 with empty_slots := [0] })
        (some { num_points := 5, dim := 7, rows := fun _ _ => 0 })).1.data
        = none) :=
  ⟨by decide, by decide,
   load_dim_mismatch_clears_empty_slots _ _ (by decide) (by decide)⟩

/-- C2: for every location below capacity and every vector of length `dim`,
`set_vector` then `get_vector` on a fresh store yields the first `dim`
components equal to the written vector; `set_vector` writes exactly `dim`
(not `aligned_dim`) components — every other buffer address is untouched —
and the components at positions at and beyond `dim` (the padding up to
`aligned_dim` included) still read zero after the round trip. -/
theorem set_get_round_trip {α : Type} [Zero α] (max_pts dim loc : Nat)
    (v : List α) (_hloc : loc < max_pts) (_hv : v.length = dim) :
    (∀ j, j < dim →
      get_vector (set_vector (mkInMemDataStore max_pts dim) loc v) loc j =
        v.getD j 0) ∧
    (∀ j, dim ≤ j →
      get_vector (set_vector (mkInMemDataStore (α := α) max_pts dim) loc v) loc j
        = 0) ∧
    (∀ addr, addr < loc * ROUND_UP dim 8 ∨ loc * ROUND_UP dim 8 + dim ≤ addr →
      ((set_vector (mkInMemDataStore (α := α) max_pts dim) loc v).data.getD
          defaultAllocation).mem addr =
        ((mkInMemDataStore (α := α) max_pts dim).data.getD
          defaultAllocation).mem addr) := by
  refine ⟨fun j hj => ?_, fun j hj => ?_, fun addr haddr => ?_⟩
  · show writeRange (fun _ => (0 : α)) (loc * ROUND_UP dim 8) v dim
        (loc * ROUND_UP dim 8 + j) = v.getD j 0
    exact writeRange_in _ _ _ _ _ hj
  · show writeRange (fun _ => (0 : α)) (loc * ROUND_UP dim 8) v dim
        (loc * ROUND_UP dim 8 + j) = 0
    exact writeRange_out _ _ _ _ _ (Or.inr (by omega))
  · show writeRange (fun _ => (0 : α)) (loc * ROUND_UP dim 8) v dim addr =
        (fun _ => (0 : α)) addr
    exact writeRange_out _ _ _ _ _ haddr

/-- C2 witness: on a fresh 2-point, 3-dimensional store over `Int`, writing
`[4, 5, 6]` at location 1 and reading it back returns those three components,
the padding reads zero, and no address outside the 3 written ones changed. -/
theorem set_get_round_trip_witness :
    (1 : Nat) < 2 ∧ ([(4 : Int), 5, 6].length = 3) ∧
    ((∀ j, j < 3 →
      get_vector (set_vector (mkInMemDataStore 2 3) 1 [(4 : Int), 5, 6]) 1 j =
        [(4 : Int), 5, 6].getD j 0) ∧
    (∀ j, 3 ≤ j →
      get_vector (set_vector (mkInMemDataStore (α := Int) 2 3) 1 [(4 : Int), 5, 6]) 1 j
        = 0) ∧
    (∀ addr, addr < 1 * ROUND_UP 3 8 ∨ 1 * ROUND_UP 3 8 + 3 ≤ addr →
      ((set_vector (mkInMemDataStore (α := Int) 2 3) 1 [(4 : Int), 5, 6]).data.getD
          defaultAllocation).mem addr =
        ((mkInMemDataStore (α := Int) 2 3).data.getD
          defaultAllocation).mem addr)) :=
  ⟨by decide, by decide, set_get_round_trip 2 3 1 _ (by decide) (by decide)⟩

/-- C8: for every id within capacity, `get_vector` reads the buffer addresses
`id * aligned_dim + j`, all strictly below the allocation size (an in-bounds
read); and `get_vector` performs no bounds check — for every id whatsoever,
in range or not, it dereferences offset `id * aligned_dim` of the buffer. -/
theorem get_vector_offset_in_bounds {α : Type} [Zero α] (s : InMemDataStore α)
    (a : Allocation α) (hdata : s.data = some a)
    (hsize : a.size = s.max_points * s.aligned_dim)
    (i : Nat) (hi : i < s.max_points) :
    (∀ j, j < s.aligned_dim → i * s.aligned_dim + j < a.size) ∧
    (∀ id j : Nat, get_vector s id j = a.mem (id * s.aligned_dim + j)) := by
  constructor
  · intro j hj
    rw [hsize]
    exact slot_addr_lt hi hj
  · intro id j
    unfold get_vector
    rw [hdata]
    rfl

/-- C8 witness: on a fresh 2-point, 3-dimensional store over `Int`, id 1 is
within capacity and every read lands below the allocation size of 16. -/
theorem get_vector_offset_in_bounds_witness :
    (mkInMemDataStore (α := Int) 2 3).data =
      some ⟨2 * ROUND_UP 3 8, fun _ => (0 : Int)⟩ ∧
    ((⟨2 * ROUND_UP 3 8, fun _ => (0 : Int)⟩ : Allocation Int).size =
      (mkInMemDataStore (α := Int) 2 3).max_points *
        (mkInMemDataStore (α := Int) 2 3).aligned_dim) ∧
    (1 : Nat) < (mkInMemDataStore (α := Int) 2 3).max_points ∧
    ((∀ j, j < (mkInMemDataStore (α := Int) 2 3).aligned_dim →
        1 * (mkInMemDataStore (α := Int) 2 3).aligned_dim + j <
          (⟨2 * ROUND_UP 3 8, fun _ => (0 : Int)⟩ : Allocation Int).size) ∧
     (∀ id j : Nat, get_vector (mkInMemDataStore (α := Int) 2 3) id j =
        (⟨2 * ROUND_UP 3 8, fun _ => (0 : Int)⟩ : Allocation Int).mem
          (id * (mkInMemDataStore (α := Int) 2 3).aligned_dim + j))) :=
  ⟨rfl, rfl, by decide,
   get_vector_offset_in_bounds _ _ rfl rfl 1 (by decide)⟩

/-- C6: a successful load whose file records more points than the current
capacity resizes to `num_points` before copying: the call returns
`num_points`, the capacity becomes `num_points`, the allocation covers
`num_points * aligned_dim` elements so every loaded id reads in bounds, and
every id below `num_points` is retrievable through `get_vector`, returning
the file components. -/
theorem load_resize_retrievable {α : Type} [Zero α] (s : InMemDataStore α)
    (a : Allocation α) (f : BinFile α) (hdata : s.data = some a)
    (hdim : f.dim = s.dim) (hpts : s.max_points < f.num_points)
    (had : 0 < s.aligned_dim) (hda : s.dim ≤ s.aligned_dim) :
    (InMemDataStore.load s (some f)).2 = Except.ok f.num_points ∧
    (InMemDataStore.load s (some f)).1.max_points = f.num_points ∧
    (∃ a' : Allocation α, (InMemDataStore.load s (some f)).1.data = some a' ∧
      a'.size = f.num_points * s.aligned_dim ∧
      (∀ id j, id < f.num_points → j < s.aligned_dim →
        id * s.aligned_dim + j < a'.size) ∧
      (∀ id j, id < f.num_points → j < s.dim →
        get_vector (InMemDataStore.load s (some f)).1 id j = f.rows id j)) := by
  have hload : InMemDataStore.load s (some f) =
      ({ s with
          empty_slots := []
          max_points := f.num_points
          data := some
            { size := f.num_points * s.aligned_dim
              mem := copyAlignedDataFromFile f s.aligned_dim a.mem } },
       Except.ok f.num_points) := by
    simp [InMemDataStore.load, load_data, resize, hdim, hpts, hdata]
  rw [hload]
  refine ⟨rfl, rfl, ⟨_, rfl, rfl, ?_, ?_⟩⟩
  · intro id j hid hj
    exact slot_addr_lt hid hj
  · intro id j hid hj
    show copyAlignedDataFromFile f s.aligned_dim a.mem (id * s.aligned_dim + j) =
      f.rows id j
    have hja : j < s.aligned_dim := Nat.lt_of_lt_of_le hj hda
    simp only [copyAlignedDataFromFile]
    rw [slot_addr_div had hja, slot_addr_mod hja,
        if_pos ⟨had, hid⟩, if_pos (by rw [hdim]; exact hj)]

/-- C6 witness: a 1-point, 3-dimensional store over `Int` loading a file of 2
points is resized to 2 points and both loaded vectors read back. -/
theorem load_resize_retrievable_witness :
    (mkInMemDataStore (α := Int) 1 3).data =
      some ⟨1 * ROUND_UP 3 8, fun _ => (0 : Int)⟩ ∧
    ((2 : Nat) > (mkInMemDataStore (α := Int) 1 3).max_points) ∧
    (0 : Nat) < (mkInMemDataStore (α := Int) 1 3).aligned_dim ∧
    ((mkInMemDataStore (α := Int) 1 3).dim ≤
      (mkInMemDataStore (α := Int) 1 3).aligned_dim) ∧
    ((InMemDataStore.load (mkInMemDataStore (α := Int) 1 3)
        (some { num_points := 2, dim := 3,
                rows := fun i j => (10 * i + j : Int) })).2 = Except.ok 2 ∧
     (InMemDataStore.load (mkInMemDataStore (α := Int) 1 3)
        (some { num_points := 2, dim := 3,
                rows := fun i j => (10 * i + j : Int) })).1.max_points = 2 ∧
     (∃ a' : Allocation Int,
       (InMemDataStore.load (mkInMemDataStore (α := Int) 1 3)
          (some { num_points := 2, dim := 3,
                  rows := fun i j => (10 * i + j : Int) })).1.data = some a' ∧
       a'.size = 2 * (mkInMemDataStore (α := Int) 1 3).aligned_dim ∧
       (∀ id j, id < 2 → j < (mkInMemDataStore (α := Int) 1 3).aligned_dim →
         id * (mkInMemDataStore (α := Int) 1 3).aligned_dim + j < a'.size) ∧
       (∀ id j, id < 2 → j < (mkInMemDataStore (α := Int) 1 3).dim →
         get_vector (InMemDataStore.load (mkInMemDataStore (α := Int) 1 3)
            (some { num_points := 2, dim := 3,
                    rows := fun i j => (10 * i + j : Int) })).1 id j =
           (10 * id + j : Int)))) :=
  ⟨rfl, by decide, by decide, by decide,
   load_resize_retrievable _ _ _ rfl rfl (by decide) (by decide) (by decide)⟩

/-! ### Claims about the scratch pool -/

lemma clear_is_empty (s : InMemQueryScratch) : s.clear.is_empty :=
  ⟨rfl, rfl, rfl⟩

lemma pop_some_mem {T : Type} (q : ConcurrentQueue T) (y : T)
    (q' : ConcurrentQueue T) (h : ConcurrentQueue.pop q = (some y, q')) :
    y ∈ q.items := by
  obtain ⟨items⟩ := q
  cases items with
  | nil => exact absurd h (by simp [ConcurrentQueue.pop])
  | cons a as =>
    simp only [ConcurrentQueue.pop, Prod.mk.injEq, Option.some.injEq] at h
    rw [← h.1]
    exact List.mem_cons_self a as

lemma stepPool_preserves_empty (sys : PoolSystem) (op : PoolOp)
    (h : ∀ x ∈ sys.pool.items, x.is_empty) :
    ∀ x ∈ (stepPool sys op).pool.items, x.is_empty := by
  obtain ⟨⟨items⟩, leased⟩ := sys
  cases op with
  | acquire =>
    cases items with
    | nil => exact h
    | cons y ys =>
      intro x hx
      exact h x (List.mem_cons_of_mem y hx)
  | mutate i s => exact h
  | release i =>
    cases hg : List.get? leased i with
    | none =>
      have hstep : stepPool ⟨⟨items⟩, leased⟩ (PoolOp.release i) =
          ⟨⟨items⟩, leased⟩ := by
        simp only [stepPool]
        rw [hg]
      rw [hstep]
      exact h
    | some y =>
      have hstep : stepPool ⟨⟨items⟩, leased⟩ (PoolOp.release i) =
          ⟨⟨items ++ [y.clear]⟩, leased.eraseIdx i⟩ := by
        simp only [stepPool]
        rw [hg]
        rfl
      rw [hstep]
      intro x hx
      rcases List.mem_append.mp hx with h1 | h2
      · exact h x h1
      · rw [List.mem_singleton.mp h2]
        exact clear_is_empty y

lemma runPool_preserves_empty (ops : List PoolOp) (sys : PoolSystem)
    (h : ∀ x ∈ sys.pool.items, x.is_empty) :
    ∀ x ∈ (runPool sys ops).pool.items, x.is_empty := by
  induction ops generalizing sys with
  | nil => exact h
  | cons op ops ih => exact ih _ (stepPool_preserves_empty sys op h)

/-- C1: the lease destructor first clears the checked-out scratch object,
then pushes the cleared object into the pool, then notifies (the pushed
object is exactly `clear` of the held one, and clearing yields the
observably empty state); consequently, starting from a pool of observably
empty objects, after any sequence of lease / mutate / release cycles every
object in the pool — in particular any object a subsequent acquisition pops —
is observably empty (pool, visited, best_l_nodes all empty). -/
theorem scratch_reacquired_empty (init : PoolSystem) (ops : List PoolOp)
    (hinit : ∀ x ∈ init.pool.items, x.is_empty) :
    (∀ (q : ConcurrentQueue InMemQueryScratch) (s : InMemQueryScratch),
      scratchRelease q s = ConcurrentQueue.push q s.clear ∧ s.clear.is_empty) ∧
    (∀ x ∈ (runPool init ops).pool.items, x.is_empty) ∧
    (∀ y q', ConcurrentQueue.pop (runPool init ops).pool = (some y, q') →
      y.is_empty) := by
  refine ⟨fun q s => ⟨rfl, clear_is_empty s⟩,
          runPool_preserves_empty ops init hinit, ?_⟩
  intro y q' hpop
  exact runPool_preserves_empty ops init hinit y
    (pop_some_mem _ y q' hpop)

/-- C1 witness: one pre-warmed empty scratch object; a thread leases it,
fills it with search state, releases it, and the next acquisition pops an
observably empty object. -/
theorem scratch_reacquired_empty_witness :
    (∀ x ∈ (PoolSystem.mk ⟨[⟨10, 64, 750, [], [], [], []⟩]⟩ []).pool.items,
      x.is_empty) ∧
    ((∀ (q : ConcurrentQueue InMemQueryScratch) (s : InMemQueryScratch),
      scratchRelease q s = ConcurrentQueue.push q s.clear ∧ s.clear.is_empty) ∧
    (∀ x ∈ (runPool (PoolSystem.mk ⟨[⟨10, 64, 750, [], [], [], []⟩]⟩ [])
        [PoolOp.acquire,
         PoolOp.mutate 0 ⟨10, 64, 750, [⟨1, 2⟩], [1], [⟨1, 2⟩], [1]⟩,
         PoolOp.release 0, PoolOp.acquire]).pool.items, x.is_empty) ∧
    (∀ y q', ConcurrentQueue.pop
        (runPool (PoolSystem.mk ⟨[⟨10, 64, 750, [], [], [], []⟩]⟩ [])
          [PoolOp.acquire,
           PoolOp.mutate 0 ⟨10, 64, 750, [⟨1, 2⟩], [1], [⟨1, 2⟩], [1]⟩,
           PoolOp.release 0, PoolOp.acquire]).pool = (some y, q') →
      y.is_empty)) :=
  ⟨by decide, scratch_reacquired_empty _ _ (by decide)⟩

/-- C7: lease construction loops pop-then-wait: the non-blocking pop of an
empty pool returns the null sentinel rather than blocking; the loop result is
a held object exactly when the pool is non-empty or some push eventually
arrives (so the constructor returns only with a non-null object); and when
the first pop is non-null the lease holds precisely the popped object. -/
theorem acquire_loop_nonnull {T : Type} (q : ConcurrentQueue T)
    (pushes : List T) :
    (ConcurrentQueue.pop (⟨[]⟩ : ConcurrentQueue T)).1 = none ∧
    ((acquire pushes q).isSome ↔ q.items ≠ [] ∨ pushes ≠ []) ∧
    (∀ x xs, q.items = x :: xs → acquire pushes q = some (x, ⟨xs⟩)) := by
  have hne : ∀ (ps : List T) (x : T) (xs : List T),
      (acquire ps ⟨x :: xs⟩).isSome := by
    intro ps x xs
    cases ps <;> rfl
  obtain ⟨items⟩ := q
  refine ⟨rfl, ?_, ?_⟩
  · cases items with
    | cons x xs =>
      exact iff_of_true (hne pushes x xs) (Or.inl (by simp))
    | nil =>
      cases pushes with
      | nil =>
        apply iff_of_false
        · show ¬ ((none : Option (T × ConcurrentQueue T)).isSome = true)
          simp
        · simp
      | cons p rest =>
        apply iff_of_true
        · show (acquire rest (⟨[p]⟩ : ConcurrentQueue T)).isSome = true
          exact hne rest p []
        · exact Or.inr (by simp)
  · intro x xs hx
    cases hx
    cases pushes <;> rfl

/-- C7 witness: against an empty pool with one eventual push the loop
terminates holding that object; the pop of the empty pool is the null
sentinel. -/
theorem acquire_loop_nonnull_witness :
    (ConcurrentQueue.pop (⟨[]⟩ : ConcurrentQueue Nat)).1 = none ∧
    ((acquire [7] (⟨[]⟩ : ConcurrentQueue Nat)).isSome ↔
      (⟨[]⟩ : ConcurrentQueue Nat).items ≠ [] ∨ ([7] : List Nat) ≠ []) ∧
    (∀ x xs, (⟨[]⟩ : ConcurrentQueue Nat).items = x :: xs →
      acquire [7] (⟨[]⟩ : ConcurrentQueue Nat) = some (x, ⟨xs⟩)) :=
  acquire_loop_nonnull ⟨[]⟩ [7]

end DiskAnn
